import Mathlib

/-!
Shallow embedding of the camera fan-out core of the `local-cameras-view`
repository: `utils/camera_stream_manager.py` (classes `CameraStream` and
`CameraStreamManager`), the MJPEG HTTP adapter of `main.py`
(`gen_frames_async`, `video_feed`) and the restart endpoint of
`utils/status_endpoint.py`.  Times (readings of `time.time()`) are modelled
as rationals, JPEG byte strings as lists of naturals.
-/

/-- A JPEG byte string (an encoded frame). -/
abbrev Jpeg := List Nat

/-- An opaque decoded image handle; the core never inspects pixels. -/
abbrev Frame := List Nat

/-- `CAMERA_CONFIG["jpeg_quality"]` from `utils/config.py`. -/
def jpeg_quality : Nat := 85

/-- `CAMERA_CONFIG["target_fps"]` from `utils/config.py`. -/
def target_fps : Nat := 30

/-- `CAMERA_CONFIG["max_buffer_size"]` from `utils/config.py`. -/
def default_max_buffer_size : Nat := 30

/-- `CAMERA_CONFIG["client_queue_size"]` from `utils/config.py`. -/
def client_queue_size : Nat := 10

/-- Deterministic stand-in for `cv2.imencode(".jpg", f, [IMWRITE_JPEG_QUALITY, q])`:
an injective function of the quality setting and the decoded frame. -/
def imencode (quality : Nat) (f : Frame) : Jpeg := quality :: f

/-- Abstract handle for the synthetic `np.zeros((480, 640, 3), dtype=np.uint8)`
black frame built in `gen_frames_async` of `main.py`. -/
def blackFrame : Frame := [480, 640, 3]

/-- OpenCV's default JPEG quality, used by the parameterless
`cv2.imencode(".jpg", black_frame)` call in `main.py`. -/
def opencv_default_quality : Nat := 95

/-- An `asyncio.Queue(maxsize=...)`: the bounded per-client sink of
`gen_frames_async`. `buf` is the FIFO content, oldest first. -/
structure ClientQueue where
  buf : List Jpeg
  maxsize : Nat
deriving DecidableEq

/-- `asyncio.Queue.full()`: with positive `maxsize`, full iff
`qsize() >= maxsize`. -/
def ClientQueue.isFull (q : ClientQueue) : Bool :=
  decide (0 < q.maxsize) && decide (q.maxsize ≤ q.buf.length)

/-- `asyncio.Queue.put_nowait`; `none` models the raised `QueueFull`. -/
def put_nowait (q : ClientQueue) (x : Jpeg) : Option ClientQueue :=
  if q.isFull then none else some { q with buf := q.buf ++ [x] }

/-- The mutable state of a `CameraStream` object
(`utils/camera_stream_manager.py`, `__init__`).  The lock, thread handle and
jpeg parameter list are modelled elsewhere (actions below are lock-atomic
exactly when the source holds `self.lock`). -/
structure CameraStream where
  camera_name : String
  rtsp_url : String
  max_buffer_size : Nat
  frame_buffer : List Frame
  clients : List ClientQueue
  is_running : Bool
  last_frame : Option Frame
  last_frame_time : ℚ
  last_frame_jpeg : Option Jpeg
  frame_interval : ℚ
deriving DecidableEq

/-- `CameraStream.__init__`.  `max_buffer_size or CAMERA_CONFIG[...]`: a
Python-falsy argument (`None` or `0`) selects the default 30. -/
def mkCameraStream (camera_name rtsp_url : String) (mbs : Option Nat) : CameraStream :=
  { camera_name := camera_name
    rtsp_url := rtsp_url
    max_buffer_size :=
      match mbs with
      | none => default_max_buffer_size
      | some 0 => default_max_buffer_size
      | some k => k
    frame_buffer := []
    clients := []
    is_running := false
    last_frame := none
    last_frame_time := 0
    last_frame_jpeg := none
    frame_interval := 1 / (target_fps : ℚ) }

/-- `CameraStream.start`: if not running, set the flag (the spawned worker
thread is modelled by the lifecycle state below). -/
def CameraStream.start (s : CameraStream) : CameraStream :=
  if s.is_running then s else { s with is_running := true }

/-- `CameraStream.stop`: clears the flag; the bounded `join(timeout=1.0)`
has no effect on this state (thread liveness is in the lifecycle model). -/
def CameraStream.stop (s : CameraStream) : CameraStream :=
  { s with is_running := false }

/-- The per-sink offer inside `CameraStream._notify_clients`: if the queue
is not full, `put_nowait` the frame; a full queue keeps its content; the
sink is kept (appended to `alive`) in either case. -/
def notifyOne (jd : Jpeg) (q : ClientQueue) : ClientQueue :=
  if q.isFull then q else { q with buf := q.buf ++ [jd] }

/-- `CameraStream._notify_clients(frame_bytes)`: early return on an empty
client list, otherwise the per-sink offers, every sink kept. -/
def notify_clients (s : CameraStream) (jd : Jpeg) : CameraStream :=
  if s.clients.isEmpty then s
  else { s with clients := s.clients.map (notifyOne jd) }

/-- `CameraStream.add_client(client_queue)` (lock-held in the source):
append the sink, then, if a cached JPEG exists, offer it non-blockingly,
swallowing `QueueFull`. -/
def add_client (s : CameraStream) (q : ClientQueue) : CameraStream :=
  let q2 :=
    match s.last_frame_jpeg with
    | none => q
    | some jd =>
      match put_nowait q jd with
      | some q3 => q3
      | none => q
  { s with clients := s.clients ++ [q2] }

/-- `CameraStream.remove_client(client_queue)` (lock-held): remove the
first matching sink if present. -/
def remove_client (s : CameraStream) (q : ClientQueue) : CameraStream :=
  if q ∈ s.clients then { s with clients := s.clients.erase q } else s

/-- `CameraStream.get_frame_count`: number of subscribed clients. -/
def get_frame_count (s : CameraStream) : Nat := s.clients.length

/-- `CameraStream.get_buffer_size`: `len(self.frame_buffer)`. -/
def get_buffer_size (s : CameraStream) : Nat := s.frame_buffer.length

/-- One iteration of the `while self.is_running` loop of
`CameraStream._stream_worker`: either `cap.read()` failed (`ret` false), or
it returned frame `f` with `time.time()` reading `now` and
`cv2.imencode` success flag `encOk`. -/
inductive WorkerEvent where
  | readFail
  | frame (f : Frame) (now : ℚ) (encOk : Bool)
deriving DecidableEq

/-- The time reading of a worker-loop iteration. -/
def WorkerEvent.timeOf : WorkerEvent → ℚ
  | .readFail => 0
  | .frame _ now _ => now

/-- The frame returned by a worker-loop iteration (dummy on a failed read). -/
def WorkerEvent.frameOf : WorkerEvent → Frame
  | .readFail => []
  | .frame f _ _ => f

/-- One iteration of `_stream_worker`'s loop body, translated from
`utils/camera_stream_manager.py` lines 73-107: pacing guard
`current_time - last_frame_time >= frame_interval`, encode once, update
`last_frame`/`last_frame_time`/`last_frame_jpeg` and the bounded
`frame_buffer` under the lock, then `_notify_clients`. -/
def workerStep (s : CameraStream) : WorkerEvent → CameraStream
  | .readFail => s
  | .frame f now encOk =>
    if s.is_running then
      if s.frame_interval ≤ now - s.last_frame_time then
        if encOk then
          let jd := imencode jpeg_quality f
          notify_clients
            { s with
              last_frame := some f
              last_frame_time := now
              last_frame_jpeg := some jd
              frame_buffer :=
                if s.frame_buffer.length < s.max_buffer_size
                then s.frame_buffer ++ [f] else s.frame_buffer } jd
        else s
      else s
    else s

/-- Whether a worker-loop iteration performs the cache update and
broadcast (the loop is live, the pacing guard passes and the encode
succeeded). -/
def isUpdate (s : CameraStream) : WorkerEvent → Bool
  | .readFail => false
  | .frame _ now encOk =>
    s.is_running && encOk && decide (s.frame_interval ≤ now - s.last_frame_time)

/-- The `time.time()` readings at which a run of the worker loop performs
cache updates (and the paired broadcasts). -/
def updateTimes (s : CameraStream) : List WorkerEvent → List ℚ
  | [] => []
  | ev :: evs =>
    if isUpdate s ev then ev.timeOf :: updateTimes (workerStep s ev) evs
    else updateTimes (workerStep s ev) evs

/-- `spacedFrom i t l`: the readings in `l` each exceed their predecessor
(starting from `t`) by at least `i`. -/
def spacedFrom (i : ℚ) : ℚ → List ℚ → Bool
  | _, [] => true
  | t, x :: xs => decide (t + i ≤ x) && spacedFrom i x xs

/-- `strictFrom t l`: the readings in `l` are strictly increasing,
starting strictly above `t`. -/
def strictFrom : ℚ → List ℚ → Bool
  | _, [] => true
  | t, x :: xs => decide (t < x) && strictFrom x xs

/-- The frames passed to `cv2.imencode` during one worker-loop iteration
(the encode happens before the `ok` flag is inspected, hence independent
of `encOk`; zero encodes when the read failed or the pacing guard skips). -/
def workerEncodes (s : CameraStream) : WorkerEvent → List Frame
  | .readFail => []
  | .frame f now _ =>
    if s.is_running ∧ s.frame_interval ≤ now - s.last_frame_time then [f] else []

/-- The class operations of `CameraStream` that can run during its
lifetime (status reads `get_frame_count`/`get_buffer_size` are pure and
omitted). -/
inductive CamOp where
  | startOp
  | stopOp
  | addClientOp (q : ClientQueue)
  | removeClientOp (q : ClientQueue)
  | workerOp (ev : WorkerEvent)
deriving DecidableEq

/-- Apply one class operation to the stream state. -/
def applyOp (s : CameraStream) : CamOp → CameraStream
  | .startOp => s.start
  | .stopOp => s.stop
  | .addClientOp q => add_client s q
  | .removeClientOp q => remove_client s q
  | .workerOp ev => workerStep s ev

/-- Run a sequence of class operations. -/
def runOps (s : CameraStream) (ops : List CamOp) : CameraStream :=
  ops.foldl applyOp s

/-- The lock-atomic actions relevant to the publication race between the
producer's accepted-frame cycle and `add_client`: the locked cache update
(lines 87-95), the unlocked `_notify_clients` broadcast (line 98) and the
locked `add_client` (lines 148-157). -/
inductive C1Action where
  | cacheUpdate (jd : Jpeg)
  | broadcast (jd : Jpeg)
  | addClient (q : ClientQueue)
deriving DecidableEq

/-- Execute one publication-race action. -/
def c1step (s : CameraStream) : C1Action → CameraStream
  | .cacheUpdate jd => { s with last_frame_jpeg := some jd }
  | .broadcast jd => notify_clients s jd
  | .addClient q => add_client s q

/-- All interleavings of the single (lock-atomic) `add_client` call with
the producer's cache-update-then-broadcast cycle for a frame `jd`. -/
def c1Interleavings (jd : Jpeg) (q : ClientQueue) : List (List C1Action) :=
  [[.addClient q, .cacheUpdate jd, .broadcast jd],
   [.cacheUpdate jd, .addClient q, .broadcast jd],
   [.cacheUpdate jd, .broadcast jd, .addClient q]]

/-- Bytes of a string literal (ASCII code points). -/
def strBytes (s : String) : List Nat := s.data.map Char.toNat

/-- The literal part header written by every `yield` of `gen_frames_async`
in `main.py`. -/
def mjpegHeader : List Nat :=
  strBytes "--frame\r\nContent-Type: image/jpeg\r\n\r\n"

/-- The trailing CRLF of each MJPEG part. -/
def crlf : List Nat := strBytes "\r\n"

/-- One turn of the `while True` loop of `gen_frames_async`: either
`client_queue.get()` returned a frame within `frame_timeout`, or
`asyncio.wait_for` raised `TimeoutError`, in which case `lastF` is the
value of `camera.last_frame` observed at that moment. -/
inductive AdapterEvent where
  | gotFrame (jd : Jpeg)
  | timeoutKA (lastF : Option Frame)
deriving DecidableEq

/-- The JPEG payload that the loop turn yields: the queued frame; on a
timeout with a cached frame, a fresh `cv2.imencode` of `camera.last_frame`
at `jpeg_quality`; otherwise an encode of the synthetic black frame at
OpenCV's default quality. -/
def adapterPayload : AdapterEvent → Jpeg
  | .gotFrame jd => jd
  | .timeoutKA (some f) => imencode jpeg_quality f
  | .timeoutKA none => imencode opencv_default_quality blackFrame

/-- The exact bytes one loop turn yields:
`b"--frame\r\nContent-Type: image/jpeg\r\n\r\n" + frame_data + b"\r\n"`. -/
def adapterChunk (ev : AdapterEvent) : List Nat :=
  mjpegHeader ++ adapterPayload ev ++ crlf

/-- The byte stream `gen_frames_async` writes over a run of loop turns
(the generator yields nothing outside the loop). -/
def gen_frames (evs : List AdapterEvent) : List Nat :=
  (evs.map adapterChunk).flatten

/-- The frames passed to `cv2.imencode` by one loop turn of
`gen_frames_async` (the keep-alive branch re-encodes the cached decoded
frame; the fallback branch encodes the synthetic black frame). -/
def adapterEncodes : AdapterEvent → List Frame
  | .gotFrame _ => []
  | .timeoutKA (some f) => [f]
  | .timeoutKA none => [blackFrame]

/-- How often frame `f` is passed to `cv2.imencode` along the whole
delivery path of one produced frame: once by the worker iteration that
accepts it, plus once per client loop turn that re-encodes it in the
keep-alive fallback. -/
def deliveryEncodeCount (s : CameraStream) (wev : WorkerEvent)
    (aevs : List AdapterEvent) (f : Frame) : Nat :=
  (workerEncodes s wev).count f + ((aevs.map adapterEncodes).flatten).count f

/-- An MJPEG part as §6 of the spec writes it: the `--frame` delimiter
line, the `Content-Type` line, a blank line, the JPEG bytes, CRLF. -/
def mjpegPartSpec (b : Jpeg) : List Nat :=
  strBytes "--frame\r\n" ++ strBytes "Content-Type: image/jpeg\r\n" ++
    strBytes "\r\n" ++ b ++ strBytes "\r\n"

/-- The result of `video_feed` in `main.py`: an `HTTPException(404)` or a
`StreamingResponse` with the given media type. -/
inductive FeedResponse where
  | notFound
  | streaming (media_type : String)
deriving DecidableEq

/-- `video_feed(camera_name)`: 404 iff the name is absent from the static
`CAMERAS_MAPPING` inventory (not from the manager's map); otherwise a
streaming response with `multipart/x-mixed-replace; boundary=frame`. -/
def video_feed (mapping : List (String × String)) (camera_name : String) : FeedResponse :=
  if (mapping.lookup camera_name).isNone then FeedResponse.notFound
  else FeedResponse.streaming "multipart/x-mixed-replace; boundary=frame"

/-- State of the `CameraStreamManager`: its `cameras` dict, keys unique
because insertion happens only at absent keys. -/
structure MgrState where
  cameras : List (String × CameraStream)
deriving DecidableEq

/-- Side effects of one `add_camera` call, for stating that the present
branch neither constructs nor starts anything. -/
inductive MgrEvent where
  | created (camera_name : String)
  | started (camera_name : String)
deriving DecidableEq

/-- `CameraStreamManager.get_camera`. -/
def get_camera (m : MgrState) (camera_name : String) : Option CameraStream :=
  m.cameras.lookup camera_name

/-- `CameraStreamManager.add_camera` (lock-held): if the name is absent,
construct a `CameraStream`, insert it and `start()` it (the dict holds the
same object that `start` mutates, so the stored and returned stream is the
started one); always return `self.cameras[camera_name]`.  The event list
records the construction and the `start()` call. -/
def add_camera (m : MgrState) (camera_name rtsp_url : String) :
    MgrState × CameraStream × List MgrEvent :=
  match m.cameras.lookup camera_name with
  | some c => (m, c, [])
  | none =>
    let cs := (mkCameraStream camera_name rtsp_url none).start
    (⟨m.cameras ++ [(camera_name, cs)]⟩, cs,
      [MgrEvent.created camera_name, MgrEvent.started camera_name])

/-- `CameraStreamManager.remove_camera` (lock-held): if present, `stop()`
the stream (invisible once the entry is deleted) and delete the entry. -/
def remove_camera (m : MgrState) (camera_name : String) : MgrState :=
  match m.cameras.lookup camera_name with
  | some _ => ⟨m.cameras.filter (fun p => !(p.1 == camera_name))⟩
  | none => m

/-- The `startup_event` hook of `main.py`: `add_camera` for every entry of
`CAMERAS_MAPPING`. -/
def startup (mapping : List (String × String)) : MgrState :=
  mapping.foldl (fun m p => (add_camera m p.1 p.2).1) ⟨[]⟩

/-- Phase of one `_stream_worker` thread: about to test
`while self.is_running`, blocked inside `cap.read()`, or exited. -/
inductive ThreadPhase where
  | atLoopHead
  | blockedRead
  | exited
deriving DecidableEq

/-- Lifecycle state of one `CameraStream`: the shared `is_running` flag
and the live worker threads ever spawned for it. -/
structure LifeState where
  is_running : Bool
  threads : List ThreadPhase
deriving DecidableEq

/-- One scheduling step of a worker thread: at the loop head it tests the
shared `is_running` flag — true proceeds into the blocking `cap.read()`,
false exits; a blocked read eventually returns to the loop head. -/
def threadStep (running : Bool) : ThreadPhase → ThreadPhase
  | .atLoopHead => if running then .blockedRead else .exited
  | .blockedRead => .atLoopHead
  | .exited => .exited

/-- Let worker thread `i` take one scheduling step. -/
def lsSched (s : LifeState) (i : Nat) : LifeState :=
  { s with threads := s.threads.modify (threadStep s.is_running) i }

/-- `CameraStream.start` at the thread level: if not running, set the flag
and spawn a fresh worker thread. -/
def lsStart (s : LifeState) : LifeState :=
  if s.is_running then s
  else { is_running := true, threads := s.threads ++ [ThreadPhase.atLoopHead] }

/-- `CameraStream.stop` at the thread level: clear `is_running`, then
`join(timeout=1.0)`.  A thread that reaches the `while` test during the
join observes false and exits; a thread blocked inside `cap.read()` for
longer than the 1 s bound is merely abandoned, not terminated. -/
def lsStop (s : LifeState) : LifeState :=
  { is_running := false
    threads := s.threads.map (fun t => if t = ThreadPhase.atLoopHead then ThreadPhase.exited else t) }

/-- `restart_camera` of `utils/status_endpoint.py`: `camera.stop()` then
`camera.start()`. -/
def lsRestart (s : LifeState) : LifeState := lsStart (lsStop s)

/-- Number of producer threads that have not exited. -/
def liveThreads (s : LifeState) : Nat :=
  (s.threads.filter (fun t => !(t == ThreadPhase.exited))).length

/-! ## Theorems -/

/-- The broadcast rewrites the client list pointwise. -/
theorem notify_clients_clients (s : CameraStream) (jd : Jpeg) :
    (notify_clients s jd).clients = s.clients.map (notifyOne jd) := by
  unfold notify_clients
  by_cases h : s.clients.isEmpty
  · simp [h, List.isEmpty_iff.mp h]
  · simp [h]

/-- C2: during `_notify_clients`, the offer to each sink is the non-blocking
`put_nowait` guarded by `full()`; a full sink keeps its content yet stays
subscribed, every other sink's outcome depends only on its own state, and
nothing else of the stream changes. -/
theorem broadcast_nonblocking_drop_isolated (s : CameraStream) (jd : Jpeg) :
    (notify_clients s jd).clients.length = s.clients.length ∧
    (∀ i : Nat, ((notify_clients s jd).clients)[i]? =
      (s.clients[i]?).map
        (fun (q : ClientQueue) => if q.isFull then q else { q with buf := q.buf ++ [jd] })) ∧
    (notify_clients s jd).is_running = s.is_running ∧
    (notify_clients s jd).last_frame_jpeg = s.last_frame_jpeg ∧
    (notify_clients s jd).frame_buffer = s.frame_buffer := by
  refine ⟨?_, ?_, ?_, ?_, ?_⟩
  · rw [notify_clients_clients]; exact List.length_map _ _
  · intro i
    rw [notify_clients_clients, List.getElem?_map]
    rfl
  · unfold notify_clients; by_cases h : s.clients.isEmpty <;> simp [h]
  · unfold notify_clients; by_cases h : s.clients.isEmpty <;> simp [h]
  · unfold notify_clients; by_cases h : s.clients.isEmpty <;> simp [h]

/-- The broadcast leaves every field but `clients` unchanged. -/
theorem notify_clients_last_frame_time (s : CameraStream) (jd : Jpeg) :
    (notify_clients s jd).last_frame_time = s.last_frame_time := by
  unfold notify_clients; by_cases h : s.clients.isEmpty <;> simp [h]

/-- The broadcast leaves the cached JPEG unchanged. -/
theorem notify_clients_last_frame_jpeg (s : CameraStream) (jd : Jpeg) :
    (notify_clients s jd).last_frame_jpeg = s.last_frame_jpeg := by
  unfold notify_clients; by_cases h : s.clients.isEmpty <;> simp [h]

/-- The broadcast leaves the pacing interval unchanged. -/
theorem notify_clients_frame_interval (s : CameraStream) (jd : Jpeg) :
    (notify_clients s jd).frame_interval = s.frame_interval := by
  unfold notify_clients; by_cases h : s.clients.isEmpty <;> simp [h]

/-- The broadcast leaves the frame buffer unchanged. -/
theorem notify_clients_frame_buffer (s : CameraStream) (jd : Jpeg) :
    (notify_clients s jd).frame_buffer = s.frame_buffer := by
  unfold notify_clients; by_cases h : s.clients.isEmpty <;> simp [h]

/-- The broadcast leaves the running flag unchanged. -/
theorem notify_clients_is_running (s : CameraStream) (jd : Jpeg) :
    (notify_clients s jd).is_running = s.is_running := by
  unfold notify_clients; by_cases h : s.clients.isEmpty <;> simp [h]

/-- The broadcast leaves the buffer-size bound unchanged. -/
theorem notify_clients_max_buffer_size (s : CameraStream) (jd : Jpeg) :
    (notify_clients s jd).max_buffer_size = s.max_buffer_size := by
  unfold notify_clients; by_cases h : s.clients.isEmpty <;> simp [h]

/-- A worker iteration never changes the pacing interval. -/
theorem workerStep_frame_interval (s : CameraStream) (ev : WorkerEvent) :
    (workerStep s ev).frame_interval = s.frame_interval := by
  cases ev with
  | readFail => rfl
  | frame f now encOk =>
    unfold workerStep
    by_cases h1 : s.is_running <;> by_cases h2 : s.frame_interval ≤ now - s.last_frame_time <;>
      cases encOk <;> simp [h1, h2, notify_clients_frame_interval]

/-- A non-updating worker iteration changes neither the cache timestamp
nor the cached JPEG. -/
theorem workerStep_not_update (s : CameraStream) (ev : WorkerEvent)
    (h : isUpdate s ev = false) :
    (workerStep s ev).last_frame_time = s.last_frame_time ∧
    (workerStep s ev).last_frame_jpeg = s.last_frame_jpeg := by
  cases ev with
  | readFail => exact ⟨rfl, rfl⟩
  | frame f now encOk =>
    unfold workerStep
    by_cases h1 : s.is_running
    · by_cases h2 : s.frame_interval ≤ now - s.last_frame_time
      · have h3 : encOk = false := by
          unfold isUpdate at h
          simpa [h1, h2] using h
        subst h3
        simp [h1, h2]
      · simp [h1, h2]
    · simp [h1]

/-- An updating worker iteration stamps the cache with the iteration's
clock reading, which the pacing guard bounds below, and stores the fresh
encode of the frame. -/
theorem workerStep_update (s : CameraStream) (ev : WorkerEvent)
    (h : isUpdate s ev = true) :
    (workerStep s ev).last_frame_time = ev.timeOf ∧
    s.last_frame_time + s.frame_interval ≤ ev.timeOf ∧
    (workerStep s ev).last_frame_jpeg = some (imencode jpeg_quality ev.frameOf) := by
  cases ev with
  | readFail => exact absurd h (by simp [isUpdate])
  | frame f now encOk =>
    unfold isUpdate at h
    simp only [Bool.and_eq_true, decide_eq_true_eq] at h
    obtain ⟨⟨h1, h3⟩, h2⟩ := h
    subst h3
    unfold workerStep
    simp only [h1, if_true, if_pos h2]
    refine ⟨?_, ?_, ?_⟩
    · simpa [WorkerEvent.timeOf] using notify_clients_last_frame_time _ _
    · simp only [WorkerEvent.timeOf]; linarith
    · simpa [WorkerEvent.frameOf] using notify_clients_last_frame_jpeg _ _

/-- Along any run of the worker loop, the clock readings of the cache
updates are each at least `frame_interval` above their predecessor,
measured from the incoming `last_frame_time`. -/
theorem spacedFrom_updateTimes :
    ∀ (evs : List WorkerEvent) (s : CameraStream),
      spacedFrom s.frame_interval s.last_frame_time (updateTimes s evs) = true := by
  intro evs
  induction evs with
  | nil => intro s; rfl
  | cons ev evs ih =>
    intro s
    unfold updateTimes
    by_cases h : isUpdate s ev = true
    · rw [if_pos h]
      unfold spacedFrom
      obtain ⟨ht, hb, _⟩ := workerStep_update s ev h
      have hrest := ih (workerStep s ev)
      rw [workerStep_frame_interval, ht] at hrest
      simp [hb, hrest]
    · rw [if_neg h]
      have hrest := ih (workerStep s ev)
      obtain ⟨ht, _⟩ := workerStep_not_update s ev (by simpa using h)
      rwa [workerStep_frame_interval, ht] at hrest

/-- Spacing by a positive interval forces strict increase. -/
theorem spacedFrom_strictFrom :
    ∀ (l : List ℚ) (i t : ℚ), 0 < i → spacedFrom i t l = true → strictFrom t l = true := by
  intro l
  induction l with
  | nil => intro i t _ _; rfl
  | cons x xs ih =>
    intro i t hi h
    unfold spacedFrom at h
    simp only [Bool.and_eq_true, decide_eq_true_eq] at h
    unfold strictFrom
    simp only [Bool.and_eq_true, decide_eq_true_eq]
    exact ⟨by linarith [h.1], ih i x hi h.2⟩

/-- C7: in every run of the producer loop, a cache update writes
`last_frame_time` with the iteration's clock reading, strictly above the
previous value, paired with the fresh encode in `last_frame_jpeg`;
non-updating iterations leave both untouched; and the clock readings of
successive cache-update/broadcast events are spaced by at least
`frame_interval` (earlier frames are skipped without broadcasting). -/
theorem pacing_and_monotone_cache (s : CameraStream) (evs : List WorkerEvent)
    (hpos : 0 < s.frame_interval) :
    spacedFrom s.frame_interval s.last_frame_time (updateTimes s evs) = true ∧
    strictFrom s.last_frame_time (updateTimes s evs) = true ∧
    (∀ ev, isUpdate s ev = true →
      (workerStep s ev).last_frame_time = ev.timeOf ∧
      s.last_frame_time < (workerStep s ev).last_frame_time ∧
      (workerStep s ev).last_frame_jpeg = some (imencode jpeg_quality ev.frameOf)) ∧
    (∀ ev, isUpdate s ev = false →
      (workerStep s ev).last_frame_time = s.last_frame_time ∧
      (workerStep s ev).last_frame_jpeg = s.last_frame_jpeg) := by
  refine ⟨spacedFrom_updateTimes evs s, ?_, ?_, workerStep_not_update s⟩
  · exact spacedFrom_strictFrom _ _ _ hpos (spacedFrom_updateTimes evs s)
  · intro ev h
    obtain ⟨ht, hb, hj⟩ := workerStep_update s ev h
    exact ⟨ht, by rw [ht]; linarith, hj⟩

/-- Concrete run of `pacing_and_monotone_cache`: a started stream with the
default 1/30 s interval, three reads at times 1, 1 + 1/300 (skipped by
pacing) and 2. -/
theorem pacing_and_monotone_cache_witness :
    0 < ((mkCameraStream "cam1" "rtsp://u" none).start).frame_interval ∧
    (spacedFrom ((mkCameraStream "cam1" "rtsp://u" none).start).frame_interval
        ((mkCameraStream "cam1" "rtsp://u" none).start).last_frame_time
        (updateTimes ((mkCameraStream "cam1" "rtsp://u" none).start)
          [WorkerEvent.frame [7] 1 true, WorkerEvent.frame [8] (1 + 1/300) true,
           WorkerEvent.frame [9] 2 true]) = true ∧
      strictFrom ((mkCameraStream "cam1" "rtsp://u" none).start).last_frame_time
        (updateTimes ((mkCameraStream "cam1" "rtsp://u" none).start)
          [WorkerEvent.frame [7] 1 true, WorkerEvent.frame [8] (1 + 1/300) true,
           WorkerEvent.frame [9] 2 true]) = true ∧
      (∀ ev, isUpdate ((mkCameraStream "cam1" "rtsp://u" none).start) ev = true →
        (workerStep ((mkCameraStream "cam1" "rtsp://u" none).start) ev).last_frame_time = ev.timeOf ∧
        ((mkCameraStream "cam1" "rtsp://u" none).start).last_frame_time <
          (workerStep ((mkCameraStream "cam1" "rtsp://u" none).start) ev).last_frame_time ∧
        (workerStep ((mkCameraStream "cam1" "rtsp://u" none).start) ev).last_frame_jpeg =
          some (imencode jpeg_quality ev.frameOf)) ∧
      (∀ ev, isUpdate ((mkCameraStream "cam1" "rtsp://u" none).start) ev = false →
        (workerStep ((mkCameraStream "cam1" "rtsp://u" none).start) ev).last_frame_time =
          ((mkCameraStream "cam1" "rtsp://u" none).start).last_frame_time ∧
        (workerStep ((mkCameraStream "cam1" "rtsp://u" none).start) ev).last_frame_jpeg =
          ((mkCameraStream "cam1" "rtsp://u" none).start).last_frame_jpeg)) :=
  ⟨by norm_num [mkCameraStream, CameraStream.start, target_fps],
   pacing_and_monotone_cache _ _
     (by norm_num [mkCameraStream, CameraStream.start, target_fps])⟩

/-- No class operation changes the configured buffer bound. -/
theorem applyOp_max_buffer_size (s : CameraStream) (op : CamOp) :
    (applyOp s op).max_buffer_size = s.max_buffer_size := by
  cases op with
  | startOp => unfold applyOp CameraStream.start; by_cases h : s.is_running <;> simp [h]
  | stopOp => rfl
  | addClientOp q => rfl
  | removeClientOp q => unfold applyOp remove_client; by_cases h : q ∈ s.clients <;> simp [h]
  | workerOp ev =>
    cases ev with
    | readFail => rfl
    | frame f now encOk =>
      unfold applyOp workerStep
      by_cases h1 : s.is_running
      · by_cases h2 : s.frame_interval ≤ now - s.last_frame_time
        · cases encOk
          · simp [h1, h2]
          · simp [h1, h2, notify_clients_max_buffer_size]
        · simp [h1, h2]
      · simp [h1]

/-- Every class operation only ever appends to `frame_buffer`: no element
is removed or read. -/
theorem applyOp_frame_buffer_extend (s : CameraStream) (op : CamOp) :
    ∃ t, (applyOp s op).frame_buffer = s.frame_buffer ++ t := by
  cases op with
  | startOp =>
    refine ⟨[], ?_⟩
    unfold applyOp CameraStream.start; by_cases h : s.is_running <;> simp [h]
  | stopOp => exact ⟨[], by simp [applyOp, CameraStream.stop]⟩
  | addClientOp q => exact ⟨[], by simp [applyOp, add_client]⟩
  | removeClientOp q =>
    refine ⟨[], ?_⟩
    unfold applyOp remove_client; by_cases h : q ∈ s.clients <;> simp [h]
  | workerOp ev =>
    cases ev with
    | readFail => exact ⟨[], by simp [applyOp, workerStep]⟩
    | frame f now encOk =>
      unfold applyOp workerStep
      by_cases h1 : s.is_running
      · by_cases h2 : s.frame_interval ≤ now - s.last_frame_time
        · cases encOk
          · exact ⟨[], by simp [h1, h2]⟩
          · by_cases h3 : s.frame_buffer.length < s.max_buffer_size
            · exact ⟨[f], by simp [h1, h2, h3, notify_clients_frame_buffer]⟩
            · exact ⟨[], by simp [h1, h2, h3, notify_clients_frame_buffer]⟩
        · exact ⟨[], by simp [h1, h2]⟩
      · exact ⟨[], by simp [h1]⟩

/-- Every class operation preserves `len(frame_buffer) <= max_buffer_size`. -/
theorem applyOp_buffer_le (s : CameraStream) (op : CamOp)
    (h : s.frame_buffer.length ≤ s.max_buffer_size) :
    (applyOp s op).frame_buffer.length ≤ (applyOp s op).max_buffer_size := by
  rw [applyOp_max_buffer_size]
  cases op with
  | startOp =>
    have : (applyOp s CamOp.startOp).frame_buffer = s.frame_buffer := by
      unfold applyOp CameraStream.start; by_cases hr : s.is_running <;> simp [hr]
    rw [this]; exact h
  | stopOp => exact h
  | addClientOp q => exact h
  | removeClientOp q =>
    have : (applyOp s (CamOp.removeClientOp q)).frame_buffer = s.frame_buffer := by
      unfold applyOp remove_client; by_cases hm : q ∈ s.clients <;> simp [hm]
    rw [this]; exact h
  | workerOp ev =>
    cases ev with
    | readFail => exact h
    | frame f now encOk =>
      unfold applyOp workerStep
      by_cases h1 : s.is_running
      · by_cases h2 : s.frame_interval ≤ now - s.last_frame_time
        · cases encOk
          · simpa [h1, h2] using h
          · by_cases h3 : s.frame_buffer.length < s.max_buffer_size
            · simp [h1, h2, h3, notify_clients_frame_buffer]
              omega
            · simpa [h1, h2, h3, notify_clients_frame_buffer] using h
        · simpa [h1, h2] using h
      · simpa [h1] using h

/-- Running operations decomposes over concatenation. -/
theorem runOps_append (s : CameraStream) (ops1 ops2 : List CamOp) :
    runOps s (ops1 ++ ops2) = runOps (runOps s ops1) ops2 :=
  List.foldl_append _ _ _ _

/-- The buffer bound invariant holds along any run. -/
theorem runOps_buffer_le :
    ∀ (ops : List CamOp) (s : CameraStream),
      s.frame_buffer.length ≤ s.max_buffer_size →
      (runOps s ops).frame_buffer.length ≤ (runOps s ops).max_buffer_size := by
  intro ops
  induction ops with
  | nil => intro s h; exact h
  | cons op ops ih =>
    intro s h
    exact ih (applyOp s op) (applyOp_buffer_le s op h)

/-- The buffer length never decreases along any run. -/
theorem runOps_buffer_mono :
    ∀ (ops : List CamOp) (s : CameraStream),
      s.frame_buffer.length ≤ (runOps s ops).frame_buffer.length := by
  intro ops
  induction ops with
  | nil => intro s; exact le_refl _
  | cons op ops ih =>
    intro s
    obtain ⟨t, ht⟩ := applyOp_frame_buffer_extend s op
    calc s.frame_buffer.length ≤ (applyOp s op).frame_buffer.length := by
          rw [ht]; simp
      _ ≤ (runOps (applyOp s op) ops).frame_buffer.length := ih (applyOp s op)

/-- C10: from construction, every reachable `CameraStream` state keeps
`len(frame_buffer) <= max_buffer_size`; no class operation removes or
reads a buffered element (the buffer is only ever extended); hence the
`buffer_size` reported by status queries is non-decreasing over the
stream's lifetime. -/
theorem buffer_bounded_append_only (nm url : String) (mbs : Option Nat)
    (ops more : List CamOp) :
    get_buffer_size (runOps (mkCameraStream nm url mbs) ops)
      ≤ (runOps (mkCameraStream nm url mbs) ops).max_buffer_size ∧
    (∀ (s0 : CameraStream) (op : CamOp),
      ∃ t, (applyOp s0 op).frame_buffer = s0.frame_buffer ++ t) ∧
    get_buffer_size (runOps (mkCameraStream nm url mbs) ops)
      ≤ get_buffer_size (runOps (mkCameraStream nm url mbs) (ops ++ more)) := by
  refine ⟨?_, applyOp_frame_buffer_extend, ?_⟩
  · exact runOps_buffer_le ops _ (by simp [mkCameraStream])
  · rw [runOps_append]
    exact runOps_buffer_mono more _

/-- A non-blocking offer never loses the frames already queued: the head
of the FIFO is unchanged. -/
theorem notifyOne_head (jd : Jpeg) (q : ClientQueue) (h : q.buf ≠ []) :
    (notifyOne jd q).buf.head? = q.buf.head? := by
  unfold notifyOne
  by_cases hf : q.isFull
  · simp [hf]
  · cases hb : q.buf with
    | nil => exact absurd hb h
    | cons a t => simp [hf, hb]

/-- A non-blocking offer never empties a queue. -/
theorem notifyOne_ne_nil (jd : Jpeg) (q : ClientQueue) (h : q.buf ≠ []) :
    (notifyOne jd q).buf ≠ [] := by
  unfold notifyOne
  by_cases hf : q.isFull
  · simpa [hf] using h
  · simp [hf]

/-- An empty sink with positive capacity accepts a `put_nowait`. -/
theorem put_nowait_empty (q : ClientQueue) (jd : Jpeg)
    (hempty : q.buf = []) (hcap : 0 < q.maxsize) :
    put_nowait q jd = some { q with buf := [jd] } := by
  have hfull : q.isFull = false := by
    unfold ClientQueue.isFull
    rw [hempty]
    simp only [List.length_nil, Bool.and_eq_false_iff, decide_eq_false_iff_not]
    right
    omega
  unfold put_nowait
  rw [hfull]
  simp [hempty]

/-- C1: in every interleaving of a lock-atomic `add_client` of a fresh
sink with the producer's cache-update-then-broadcast cycle, when a cached
encoded frame is present the new sink ends up subscribed and holding at
its head either that cached frame (delivered immediately by `add_client`)
or the broadcast frame — it never misses both. -/
theorem subscriber_never_misses_frame (s : CameraStream) (q : ClientQueue)
    (jd0 jd : Jpeg) (acts : List C1Action)
    (hacts : acts ∈ c1Interleavings jd q)
    (hcache : s.last_frame_jpeg = some jd0)
    (hempty : q.buf = []) (hcap : 0 < q.maxsize) :
    ∃ q2 : ClientQueue,
      ((acts.foldl c1step s).clients)[s.clients.length]? = some q2 ∧
      q2.buf ≠ [] ∧
      (q2.buf.head? = some jd0 ∨ q2.buf.head? = some jd) := by
  have hq0 := put_nowait_empty q jd0 hempty hcap
  have hq1 := put_nowait_empty q jd hempty hcap
  simp only [c1Interleavings, List.mem_cons, List.not_mem_nil, or_false] at hacts
  rcases hacts with h | h | h
  · -- add_client, then cache update, then broadcast
    subst h
    simp only [List.foldl, c1step]
    have hadd : add_client s q = { s with clients := s.clients ++ [{ q with buf := [jd0] }] } := by
      simp only [add_client, hcache, hq0]
    rw [hadd]
    refine ⟨notifyOne jd { q with buf := [jd0] }, ?_, ?_, ?_⟩
    · rw [notify_clients_clients]
      simp
    · exact notifyOne_ne_nil _ _ (by simp)
    · left
      rw [notifyOne_head _ _ (by simp)]
      simp
  · -- cache update, then add_client, then broadcast
    subst h
    simp only [List.foldl, c1step]
    have hadd : add_client { s with last_frame_jpeg := some jd } q =
        { s with last_frame_jpeg := some jd,
                 clients := s.clients ++ [{ q with buf := [jd] }] } := by
      simp only [add_client, hq1]
    rw [hadd]
    refine ⟨notifyOne jd { q with buf := [jd] }, ?_, ?_, ?_⟩
    · rw [notify_clients_clients]
      simp
    · exact notifyOne_ne_nil _ _ (by simp)
    · right
      rw [notifyOne_head _ _ (by simp)]
      simp
  · -- cache update, then broadcast, then add_client
    subst h
    simp only [List.foldl, c1step]
    have hjpeg : (notify_clients { s with last_frame_jpeg := some jd } jd).last_frame_jpeg
        = some jd := notify_clients_last_frame_jpeg _ _
    have hlen : (notify_clients { s with last_frame_jpeg := some jd } jd).clients.length
        = s.clients.length := by
      rw [notify_clients_clients]; simp
    refine ⟨{ q with buf := [jd] }, ?_, by simp, Or.inr (by simp)⟩
    simp only [add_client, hjpeg, hq1]
    rw [← hlen]
    exact List.getElem?_concat_length _ _

/-- Concrete run of `subscriber_never_misses_frame`: a fresh default-size
sink subscribing after the cache update and broadcast of frame `[85, 5]`,
with `[85, 4]` cached beforehand. -/
theorem subscriber_never_misses_frame_witness :
    ∃ q2 : ClientQueue,
      (([C1Action.cacheUpdate [85, 5], C1Action.broadcast [85, 5],
          C1Action.addClient ⟨[], client_queue_size⟩].foldl c1step
            { mkCameraStream "cam1" "rtsp://u" none with
              last_frame_jpeg := some [85, 4] }).clients)[
        ({ mkCameraStream "cam1" "rtsp://u" none with
            last_frame_jpeg := some [85, 4] } : CameraStream).clients.length]? = some q2 ∧
      q2.buf ≠ [] ∧
      (q2.buf.head? = some [85, 4] ∨ q2.buf.head? = some [85, 5]) :=
  subscriber_never_misses_frame
    { mkCameraStream "cam1" "rtsp://u" none with last_frame_jpeg := some [85, 4] }
    ⟨[], client_queue_size⟩ [85, 4] [85, 5] _
    (by simp [c1Interleavings]) rfl rfl (by decide)

/-- The literal header of every yield equals the spec's delimiter line,
`Content-Type` line and blank line, byte for byte. -/
theorem mjpegHeader_split :
    mjpegHeader = strBytes "--frame\r\n" ++ strBytes "Content-Type: image/jpeg\r\n" ++
      strBytes "\r\n" := by decide

/-- Every chunk the generator yields is exactly the spec's MJPEG part for
its payload. -/
theorem adapterChunk_eq_spec (ev : AdapterEvent) :
    adapterChunk ev = mjpegPartSpec (adapterPayload ev) := by
  unfold adapterChunk mjpegPartSpec crlf
  rw [mjpegHeader_split]

/-- C8: the bytes written for a delivered frame `b` are exactly
`b"--frame\r\nContent-Type: image/jpeg\r\n\r\n" + b + b"\r\n"`; the whole
response body is the concatenation of such parts with no other prelude, so
the `--frame` delimiter precedes every part including the first. -/
theorem mjpeg_parts_bit_exact (evs : List AdapterEvent) (b : Jpeg) :
    adapterChunk (AdapterEvent.gotFrame b) =
      strBytes "--frame\r\nContent-Type: image/jpeg\r\n\r\n" ++ b ++ strBytes "\r\n" ∧
    adapterChunk (AdapterEvent.gotFrame b) = mjpegPartSpec b ∧
    gen_frames evs = ((evs.map adapterPayload).map mjpegPartSpec).flatten ∧
    (evs ≠ [] → (gen_frames evs).take mjpegHeader.length = mjpegHeader) := by
  refine ⟨rfl, adapterChunk_eq_spec _, ?_, ?_⟩
  · unfold gen_frames
    rw [List.map_map]
    exact congrArg List.flatten
      (List.map_congr_left (fun ev _ => adapterChunk_eq_spec ev))
  · intro hne
    cases evs with
    | nil => exact absurd rfl hne
    | cons ev rest =>
      unfold gen_frames
      simp only [List.map_cons, List.flatten_cons]
      unfold adapterChunk
      rw [List.append_assoc, List.append_assoc]
      simp

/-- Concrete run of `mjpeg_parts_bit_exact`: one queued frame followed by
a cacheless keep-alive timeout. -/
theorem mjpeg_parts_bit_exact_witness :
    [AdapterEvent.gotFrame [85, 7], AdapterEvent.timeoutKA none] ≠ [] ∧
    (gen_frames [AdapterEvent.gotFrame [85, 7], AdapterEvent.timeoutKA none]).take
      mjpegHeader.length = mjpegHeader :=
  ⟨by decide,
   (mjpeg_parts_bit_exact [AdapterEvent.gotFrame [85, 7], AdapterEvent.timeoutKA none]
     [85, 7]).2.2.2 (by decide)⟩

/-- The broadcast leaves the cached decoded frame unchanged. -/
theorem notify_clients_last_frame (s : CameraStream) (jd : Jpeg) :
    (notify_clients s jd).last_frame = s.last_frame := by
  unfold notify_clients; by_cases h : s.clients.isEmpty <;> simp [h]

/-- A started default stream is running. -/
theorem start_mk_is_running (nm url : String) (mbs : Option Nat) :
    ((mkCameraStream nm url mbs).start).is_running = true := by
  simp [mkCameraStream, CameraStream.start]

/-- On a started default stream, a read at time 1 passes the pacing guard. -/
theorem start_mk_guard_at_one (nm url : String) (mbs : Option Nat) :
    ((mkCameraStream nm url mbs).start).frame_interval ≤
      1 - ((mkCameraStream nm url mbs).start).last_frame_time := by
  simp [mkCameraStream, CameraStream.start, target_fps]
  norm_num

/-- C4 counterexample: with the frame `[7]` read at time 1 by a started
default stream, the worker encodes it once, and a single subscriber
hitting the keep-alive fallback (`camera.last_frame` being that frame)
encodes it a second time, so over the whole delivery path `cv2.imencode`
runs twice for this frame — refuting "at most once in total". -/
theorem shared_encode_whole_path_counterexample :
    (workerStep ((mkCameraStream "cam1" "rtsp://u" none).start)
        (WorkerEvent.frame [7] 1 true)).last_frame = some [7] ∧
    deliveryEncodeCount ((mkCameraStream "cam1" "rtsp://u" none).start)
        (WorkerEvent.frame [7] 1 true) [AdapterEvent.timeoutKA (some [7])] [7] = 2 ∧
    ¬ (deliveryEncodeCount ((mkCameraStream "cam1" "rtsp://u" none).start)
        (WorkerEvent.frame [7] 1 true) [AdapterEvent.timeoutKA (some [7])] [7] ≤ 1) := by
  have hrun := start_mk_is_running "cam1" "rtsp://u" none
  have hg := start_mk_guard_at_one "cam1" "rtsp://u" none
  have h2 : deliveryEncodeCount ((mkCameraStream "cam1" "rtsp://u" none).start)
      (WorkerEvent.frame [7] 1 true) [AdapterEvent.timeoutKA (some [7])] [7] = 2 := by
    simp [deliveryEncodeCount, workerEncodes, adapterEncodes, hrun, hg]
  refine ⟨?_, h2, by rw [h2]; omega⟩
  simp only [workerStep]
  rw [if_pos hrun, if_pos hg]
  simp [notify_clients_last_frame]

/-- C4 amended: on the broadcast path, the worker encodes a produced
frame at most once, independently of the subscriber count, and every
non-full sink receives the very same bytes `imencode jpeg_quality f`
appended to its queue (byte-identical across subscribers).  Only the
per-client keep-alive fallback of the HTTP adapter re-encodes the cached
decoded frame (see the counterexample). -/
theorem shared_encode_broadcast_path (s : CameraStream) (f : Frame) (now : ℚ)
    (encOk : Bool) :
    (∀ cls : List ClientQueue,
      workerEncodes { s with clients := cls } (WorkerEvent.frame f now encOk) =
        workerEncodes s (WorkerEvent.frame f now encOk)) ∧
    (workerEncodes s (WorkerEvent.frame f now encOk)).length ≤ 1 ∧
    (isUpdate s (WorkerEvent.frame f now encOk) = true →
      ∀ (i : Nat) (q : ClientQueue), s.clients[i]? = some q → q.isFull = false →
        ((workerStep s (WorkerEvent.frame f now encOk)).clients)[i]? =
          some { q with buf := q.buf ++ [imencode jpeg_quality f] }) := by
  refine ⟨fun cls => rfl, ?_, ?_⟩
  · simp only [workerEncodes]
    by_cases h : s.is_running = true ∧ s.frame_interval ≤ now - s.last_frame_time <;>
      simp [h]
  · intro hupd i q hq hfull
    simp only [isUpdate, Bool.and_eq_true, decide_eq_true_eq] at hupd
    obtain ⟨⟨h1, h3⟩, h2⟩ := hupd
    simp only [workerStep]
    rw [if_pos h1, if_pos h2, if_pos h3]
    rw [notify_clients_clients]
    simp only [List.getElem?_map, hq, Option.map_some]
    simp [notifyOne, hfull]

/-- Concrete run of `shared_encode_broadcast_path`: a running stream with
one empty sink accepting the broadcast of the frame read at time 1. -/
theorem shared_encode_broadcast_path_witness :
    (isUpdate { mkCameraStream "cam1" "rtsp://u" none with
        is_running := true, clients := [⟨[], client_queue_size⟩] }
      (WorkerEvent.frame [7] 1 true) = true) ∧
    ((workerStep { mkCameraStream "cam1" "rtsp://u" none with
        is_running := true, clients := [⟨[], client_queue_size⟩] }
      (WorkerEvent.frame [7] 1 true)).clients)[0]? =
      some ⟨[imencode jpeg_quality [7]], client_queue_size⟩ := by
  have hbase := shared_encode_broadcast_path
    { mkCameraStream "cam1" "rtsp://u" none with
      is_running := true, clients := [⟨[], client_queue_size⟩] } [7] 1 true
  have hupd : isUpdate { mkCameraStream "cam1" "rtsp://u" none with
      is_running := true, clients := [⟨[], client_queue_size⟩] }
      (WorkerEvent.frame [7] 1 true) = true := by
    simp only [isUpdate, Bool.and_eq_true, decide_eq_true_eq]
    refine ⟨⟨trivial, trivial⟩, ?_⟩
    norm_num [mkCameraStream, target_fps]
  refine ⟨hupd, ?_⟩
  have := hbase.2.2 hupd 0 ⟨[], client_queue_size⟩ rfl (by decide)
  simpa using this

/-- C5 counterexample: a client that twice hits `frame_timeout` while the
stream has no cached frame receives the synthetic black part twice in the
same response — refuting "exactly once for the lifetime of that
response". -/
theorem black_frame_once_per_response_counterexample :
    gen_frames [AdapterEvent.timeoutKA none, AdapterEvent.timeoutKA none] =
      mjpegPartSpec (imencode opencv_default_quality blackFrame) ++
        mjpegPartSpec (imencode opencv_default_quality blackFrame) ∧
    ((List.map adapterEncodes
        [AdapterEvent.timeoutKA none, AdapterEvent.timeoutKA none]).flatten).count
      blackFrame = 2 ∧
    ¬ ((List.map adapterEncodes
        [AdapterEvent.timeoutKA none, AdapterEvent.timeoutKA none]).flatten).count
      blackFrame ≤ 1 := by
  refine ⟨by decide, by decide, by decide⟩

/-- C5 amended: on each `frame_timeout` expiry the adapter writes exactly
one part — when a cached frame exists, its payload is the re-encode of
`camera.last_frame`, byte-identical to the stream's cached JPEG (the two
caches are updated as a pair); when none exists, one synthetic black part
per such expiry (not once per response). -/
theorem keepalive_per_timeout (s : CameraStream) (f : Frame) (evs : List AdapterEvent)
    (hframe : s.last_frame = some f)
    (hjpeg : s.last_frame_jpeg = some (imencode jpeg_quality f)) :
    (∀ jd, s.last_frame_jpeg = some jd →
      adapterChunk (AdapterEvent.timeoutKA s.last_frame) = mjpegHeader ++ jd ++ crlf) ∧
    adapterChunk (AdapterEvent.timeoutKA none) =
      mjpegPartSpec (imencode opencv_default_quality blackFrame) ∧
    gen_frames evs = (evs.map adapterChunk).flatten ∧
    (evs.map adapterChunk).length = evs.length := by
  refine ⟨?_, adapterChunk_eq_spec _, rfl, List.length_map _ _⟩
  intro jd hjd
  rw [hframe]
  rw [hjpeg] at hjd
  have hj2 : imencode jpeg_quality f = jd := Option.some_injective _ hjd
  rw [← hj2]
  rfl

/-- Concrete run of `keepalive_per_timeout`: the state after the worker
accepted frame `[7]` at time 1 (pairing the two caches), with one queued
frame and one cacheless timeout in the event run. -/
theorem keepalive_per_timeout_witness :
    (workerStep ((mkCameraStream "cam1" "rtsp://u" none).start)
        (WorkerEvent.frame [7] 1 true)).last_frame = some [7] ∧
    (workerStep ((mkCameraStream "cam1" "rtsp://u" none).start)
        (WorkerEvent.frame [7] 1 true)).last_frame_jpeg =
      some (imencode jpeg_quality [7]) ∧
    adapterChunk (AdapterEvent.timeoutKA
        (workerStep ((mkCameraStream "cam1" "rtsp://u" none).start)
          (WorkerEvent.frame [7] 1 true)).last_frame) =
      mjpegHeader ++ imencode jpeg_quality [7] ++ crlf := by
  have hrun := start_mk_is_running "cam1" "rtsp://u" none
  have hg := start_mk_guard_at_one "cam1" "rtsp://u" none
  have hframe : (workerStep ((mkCameraStream "cam1" "rtsp://u" none).start)
      (WorkerEvent.frame [7] 1 true)).last_frame = some [7] := by
    simp only [workerStep]
    rw [if_pos hrun, if_pos hg]
    simp [notify_clients_last_frame]
  have hjpeg : (workerStep ((mkCameraStream "cam1" "rtsp://u" none).start)
      (WorkerEvent.frame [7] 1 true)).last_frame_jpeg =
      some (imencode jpeg_quality [7]) := by
    simp only [workerStep]
    rw [if_pos hrun, if_pos hg]
    simp [notify_clients_last_frame_jpeg]
  exact ⟨hframe, hjpeg,
    (keepalive_per_timeout _ [7] [] hframe hjpeg).1 (imencode jpeg_quality [7]) hjpeg⟩

/-- C6 counterexample: with inventory `[("cam1", "rtsp://u")]`, after
startup and then `remove_camera("cam1")`, the stream is absent from the
manager's map, yet `video_feed` (which consults only the static
`CAMERAS_MAPPING`) still returns the 200 streaming response, not 404. -/
theorem video_feed_after_remove_counterexample :
    get_camera (remove_camera (startup [("cam1", "rtsp://u")]) "cam1") "cam1" = none ∧
    video_feed [("cam1", "rtsp://u")] "cam1" =
      FeedResponse.streaming "multipart/x-mixed-replace; boundary=frame" ∧
    video_feed [("cam1", "rtsp://u")] "cam1" ≠ FeedResponse.notFound := by
  refine ⟨?_, rfl, by simp [video_feed, List.lookup]⟩
  rfl

/-- C6 amended: `video_feed` answers 404 exactly when the name is absent
from the static `CAMERAS_MAPPING` inventory; whenever the name is in the
inventory — even if the stream was removed from the manager's map — it
returns a 200 streaming response with media type
`multipart/x-mixed-replace; boundary=frame` (the route handler reads no
manager state before returning). -/
theorem video_feed_404_iff_not_in_inventory (mapping : List (String × String))
    (nm : String) :
    (video_feed mapping nm = FeedResponse.notFound ↔ mapping.lookup nm = none) ∧
    (mapping.lookup nm ≠ none →
      video_feed mapping nm =
        FeedResponse.streaming "multipart/x-mixed-replace; boundary=frame") := by
  unfold video_feed
  by_cases h : (mapping.lookup nm).isNone
  · have hn := Option.isNone_iff_eq_none.mp h
    refine ⟨?_, fun hne => absurd hn hne⟩
    simp [h, hn]
  · have hn : mapping.lookup nm ≠ none := fun hc => h (Option.isNone_iff_eq_none.mpr hc)
    refine ⟨?_, fun _ => by simp [h]⟩
    simp [h, hn]

/-- Concrete run of `video_feed_404_iff_not_in_inventory` on a one-entry
inventory containing the requested name. -/
theorem video_feed_404_iff_not_in_inventory_witness :
    ([("cam1", "rtsp://u")].lookup "cam1" ≠ (none : Option String)) ∧
    video_feed [("cam1", "rtsp://u")] "cam1" =
      FeedResponse.streaming "multipart/x-mixed-replace; boundary=frame" :=
  ⟨by decide,
   (video_feed_404_iff_not_in_inventory [("cam1", "rtsp://u")] "cam1").2 (by decide)⟩

/-- Appending a new key at the end of an association list with that key
absent makes lookup find it. -/
theorem lookup_append_singleton {β : Type} (l : List (String × β)) (nm : String) (c : β)
    (h : l.lookup nm = none) : (l ++ [(nm, c)]).lookup nm = some c := by
  induction l with
  | nil => simp [List.lookup]
  | cons p l ih =>
    rw [List.cons_append]
    cases p with
    | mk k v =>
      by_cases hk : nm == k
      · exfalso
        simp [List.lookup, hk] at h
      · simp only [List.lookup, hk]
        apply ih
        simpa [List.lookup, hk] using h

/-- C9: `add_camera` on an absent name constructs, inserts and starts a
new stream and returns it; on a present name it returns the existing
stream, constructs and starts nothing and leaves the map unchanged; hence
calling it twice with the same name equals calling it once. -/
theorem add_camera_idempotent (m : MgrState) (nm url : String) :
    (m.cameras.lookup nm = none →
      add_camera m nm url =
        (⟨m.cameras ++ [(nm, (mkCameraStream nm url none).start)]⟩,
          (mkCameraStream nm url none).start,
          [MgrEvent.created nm, MgrEvent.started nm])) ∧
    (∀ c, m.cameras.lookup nm = some c → add_camera m nm url = (m, c, [])) ∧
    (add_camera (add_camera m nm url).1 nm url).1 = (add_camera m nm url).1 ∧
    (add_camera (add_camera m nm url).1 nm url).2.1 = (add_camera m nm url).2.1 ∧
    (add_camera (add_camera m nm url).1 nm url).2.2 = [] := by
  have habs : m.cameras.lookup nm = none →
      add_camera m nm url =
        (⟨m.cameras ++ [(nm, (mkCameraStream nm url none).start)]⟩,
          (mkCameraStream nm url none).start,
          [MgrEvent.created nm, MgrEvent.started nm]) := by
    intro h
    unfold add_camera
    rw [h]
  have hpres : ∀ c, m.cameras.lookup nm = some c → add_camera m nm url = (m, c, []) := by
    intro c h
    unfold add_camera
    rw [h]
  refine ⟨habs, hpres, ?_⟩
  cases hl : m.cameras.lookup nm with
  | some c =>
    rw [hpres c hl]
    have := hpres c hl
    rw [hpres c hl]
    exact ⟨rfl, rfl, rfl⟩
  | none =>
    rw [habs hl]
    have hfound : (m.cameras ++ [(nm, (mkCameraStream nm url none).start)]).lookup nm =
        some ((mkCameraStream nm url none).start) :=
      lookup_append_singleton m.cameras nm _ hl
    unfold add_camera
    rw [hfound]
    exact ⟨rfl, rfl, rfl⟩

/-- Concrete run of `add_camera_idempotent` on the empty manager: the
first call inserts and starts `cam1`, the second returns it unchanged
with no construction or start events. -/
theorem add_camera_idempotent_witness :
    add_camera (⟨[]⟩ : MgrState) "cam1" "rtsp://u" =
      (⟨[("cam1", (mkCameraStream "cam1" "rtsp://u" none).start)]⟩,
        (mkCameraStream "cam1" "rtsp://u" none).start,
        [MgrEvent.created "cam1", MgrEvent.started "cam1"]) ∧
    (add_camera (add_camera (⟨[]⟩ : MgrState) "cam1" "rtsp://u").1 "cam1" "rtsp://u").1 =
      (add_camera (⟨[]⟩ : MgrState) "cam1" "rtsp://u").1 ∧
    (add_camera (add_camera (⟨[]⟩ : MgrState) "cam1" "rtsp://u").1 "cam1" "rtsp://u").2.2 =
      [] := by
  have h := add_camera_idempotent (⟨[]⟩ : MgrState) "cam1" "rtsp://u"
  exact ⟨by simpa using h.1 rfl, h.2.2.1, h.2.2.2.2⟩

/-- C3 (code-bug evidence): start a stream and let its worker block in
`cap.read()`; the restart endpoint then runs `stop()` — whose bounded
`join(timeout=1.0)` expires with the read still blocked — followed by
`start()`, which sets the shared `is_running` flag back to true and spawns
a second worker thread.  When the old read returns, its
`while self.is_running` test observes true again, so two producer threads
are live (and both proceed into reads) while `is_running` is true,
violating "exactly one producer task is running when is_running is true". -/
theorem restart_leaves_two_producers :
    (lsRestart (lsSched (lsStart ⟨false, []⟩) 0)).is_running = true ∧
    liveThreads (lsRestart (lsSched (lsStart ⟨false, []⟩) 0)) = 2 ∧
    (lsSched (lsSched (lsSched (lsRestart (lsSched (lsStart ⟨false, []⟩) 0)) 0) 0) 1).threads
      = [ThreadPhase.blockedRead, ThreadPhase.blockedRead] ∧
    liveThreads
      (lsSched (lsSched (lsSched (lsRestart (lsSched (lsStart ⟨false, []⟩) 0)) 0) 0) 1)
      = 2 := by
  decide
